import Mathlib

/-!
Verification development for the wxMaxima math-parser core
(src/MathParser.cpp, src/FunCell.cpp, src/LimitCell.cpp).

The development shallowly embeds, in Lean, the parts of the code the
claims are about:

* the recursive-descent XML tag dispatcher (`ParseTag`, `ParseLine`,
  `ParseFunTag`, `ParseLimitTag`, `ParseTagContents`, `ParseText`,
  `HandleNullPointer`, `SkipWhitespaceNode`, `GetNextTag`) over an
  explicit XML-tree type, with the parser's sibling loop translated into
  explicit loop-state passing and a fuel parameter for recursion depth
  (`none` = fuel exhausted, which never occurs in the theorems below);

* the cell tree produced by the parser (`PCell`), with the plain-text and
  TeX serializers of the function-application and limit cells
  (`pcellToString`, `pcellToTeX`) translated from FunCell.cpp and
  LimitCell.cpp, including the wxString-level operations they use
  (`wxFind`, `wxSubString`, `wxLeft`, `wxRight`, ...);

* the layout state machine of the same two cell types
  (`FunCell_RecalculateWidths`/`Height`, `FunCell_BreakUp`,
  `LimitCell_RecalculateWidths`/`Height`, `LimitCell_BreakUp`) over a
  cell-state record, with child sub-chains abstracted to their list
  metrics (full width, list height, list center, max drop, as functions
  of the font size they are recalculated at) and the draw-chain links
  modelled explicitly.

Pieces of the cell base class that live outside the given sources
(Cell.cpp) are modelled from the spec and marked `Modelled from the
spec:` in their doc comments.
-/

/-! ## wxString operations

The serializers use a handful of wxString member functions.  They are
modelled here over `List Char` (with `String` wrappers), following wx
semantics at the call sites: `Trim()` trims trailing whitespace,
`Find` returns the first index of a substring or wxNOT_FOUND = -1,
`SubString(a,b)` is inclusive of both endpoints, `Left`/`Right` take a
prefix/suffix, and `wxStringTokenizer` in its default mode skips empty
tokens. -/

def wxIsSpace (c : Char) : Bool :=
  c = ' ' ∨ c = '\t' ∨ c = '\n' ∨ c = '\x0b' ∨ c = '\x0c' ∨ c = '\r'

/-- wxString::Trim() with its default argument trims whitespace from the right. -/
def wxTrim (s : String) : String :=
  ⟨(s.data.reverse.dropWhile wxIsSpace).reverse⟩

/-- Length of a wxString, as the `long` the code casts it to. -/
def wxLen (s : String) : Int :=
  (s.data.length : Int)

/-- First index at which `pat` occurs in `hay`, scanning left to right. -/
def listFindFrom (pat : List Char) : List Char → Nat → Option Nat
  | [], _ => none
  | c :: cs, i => if pat.isPrefixOf (c :: cs) then some i else listFindFrom pat cs (i + 1)

/-- wxString::Find(substring): first index of the substring, or wxNOT_FOUND = -1. -/
def wxFind (hay pat : String) : Int :=
  match listFindFrom pat.data hay.data 0 with
  | some i => (i : Int)
  | none => -1

/-- wxString::Contains. -/
def wxContains (hay pat : String) : Bool :=
  wxFind hay pat ≠ -1

/-- wxString::SubString(a, b): the characters at indices a..b, both inclusive
(total on the index ranges the code reaches, where 0 ≤ a ≤ b). -/
def wxSubString (s : String) (a b : Int) : String :=
  ⟨(s.data.drop a.toNat).take (b - a + 1).toNat⟩

/-- wxString::Left(n): the first n characters. -/
def wxLeft (s : String) (n : Int) : String :=
  ⟨s.data.take n.toNat⟩

/-- wxString::Right(n): the last n characters. -/
def wxRight (s : String) (n : Int) : String :=
  ⟨s.data.drop (s.data.length - n.toNat)⟩

/-- str.Replace("-", "\u2212"): the unicode-minus substitution in ParseText. -/
def wxReplaceMinus (s : String) : String :=
  ⟨s.data.map (fun c => if c = '-' then '\u2212' else c)⟩

/-- wxStringTokenizer(str, '\n') in its default mode: split on newlines,
skipping empty tokens. -/
def wxTokenizeLines (s : String) : List String :=
  ((s.data.splitOn '\n').filter (· ≠ [])).map (fun l => ⟨l⟩)

/-- The m_graphRegex = wxRegEx("[[:cntrl:]]") replacement in ParseLine:
every control character is replaced by U+FFFD. -/
def graphRegexReplace (s : String) : String :=
  ⟨s.data.map (fun c => if c.toNat < 32 ∨ c.toNat = 127 then '\uFFFD' else c)⟩

/-! ## Styles and cell types -/

/-- The TextStyle values used by the parsed sources. -/
inductive TextStyle where
  | TS_DEFAULT
  | TS_VARIABLE
  | TS_FUNCTION
  | TS_ERROR
  | TS_WARNING
  | TS_LABEL
  | TS_USERLABEL
deriving DecidableEq, Repr

/-- The CellType (MC_TYPE_...) values used by the parsed sources. -/
inductive CellType where
  | MC_TYPE_DEFAULT
  | MC_TYPE_ERROR
  | MC_TYPE_WARNING
  | MC_TYPE_LABEL
  | MC_TYPE_INPUT
  | MC_TYPE_TEXT
deriving DecidableEq, Repr

/-- The shared per-cell attributes the parsed code reads and writes:
type and style tags, highlight, forced line break, tooltip, alternate
copy text, and the broken-into-lines flag consulted by the serializers. -/
structure CommonData where
  cellType : CellType := CellType.MC_TYPE_DEFAULT
  style : TextStyle := TextStyle.TS_DEFAULT
  highlight : Bool := false
  forceBreakLine : Bool := false
  toolTip : Option String := none
  altCopy : String := ""
  isBrokenIntoLines : Bool := false
  isHidableMultSign : Bool := false
deriving DecidableEq, Repr

/-! ## The parsed cell tree

A parsed fragment is a cell chain, modelled as `List PCell`; the empty
list is the null/absent fragment (`OwningCellPtr` null).  The cell types
the claims touch are embedded with their child chains; text cells carry
their string value. -/

inductive PCell where
  | textC (common : CommonData) (value : String)
  | funC (common : CommonData) (name : List PCell) (arg : List PCell)
  | limitC (common : CommonData) (name : List PCell) (under : List PCell) (base : List PCell)

/-- The shared attribute record of a cell. -/
def PCell.common : PCell → CommonData
  | .textC c _ => c
  | .funC c _ _ => c
  | .limitC c _ _ _ => c

/-- Replace the shared attribute record of a cell. -/
def PCell.withCommon (f : CommonData → CommonData) : PCell → PCell
  | .textC c v => .textC (f c) v
  | .funC c n a => .funC (f c) n a
  | .limitC c n u b => .limitC (f c) n u b

/-- Cell::SetStyle. -/
def PCell.setStyle (st : TextStyle) (c : PCell) : PCell :=
  c.withCommon (fun cd => { cd with style := st })

/-- Cell::SetToolTip. -/
def PCell.setToolTip (tip : String) (c : PCell) : PCell :=
  c.withCommon (fun cd => { cd with toolTip := some tip })

/-- Cell::ForceBreakLine. -/
def PCell.forceBreakLine (b : Bool) (c : PCell) : PCell :=
  c.withCommon (fun cd => { cd with forceBreakLine := b })

/-- True for a function-application cell. -/
def PCell.isFunCell : PCell → Bool
  | .funC _ _ _ => true
  | _ => false

/-! ## Plain-text serialization

`LimitCell::ToString` (LimitCell.cpp 143-158) extracts the bound
variable and the target by splitting the rendered "under" string on
`->`, then turns a trailing `+`/`-` of the target into a `,plus`/`,minus`
suffix.  The string-level part is `limitToStringAux`; the recursive
renderers follow. -/

def limitToStringAux (under base : String) : String :=
  let var := wxSubString under 0 (wxFind under "->" - 1)
  let toV := wxSubString under (wxFind under "->" + 2) (wxLen under - 1)
  let toV := if wxRight toV 1 = "+" then wxLeft toV (wxLen toV - 1) ++ ",plus" else toV
  let toV := if wxRight toV 1 = "-" then wxLeft toV (wxLen toV - 1) ++ ",minus" else toV
  "limit" ++ "(" ++ base ++ "," ++ var ++ "," ++ toV ++ ")"

mutual
/-- Cell::ToString per cell type.  `textC` renders its value (modelled: the
text-cell renderer is outside the given sources).  `funC` follows
FunCell::ToString (empty when broken, the alternate copy text when set,
otherwise name and argument renderings concatenated).  `limitC` follows
LimitCell::ToString via `limitToStringAux`. -/
def pcellToString : PCell → String
  | .textC _ v => v
  | .funC c name arg =>
      if c.isBrokenIntoLines then ""
      else if c.altCopy ≠ "" then c.altCopy
      else pcellListToString name ++ pcellListToString arg
  | .limitC _ _ under base =>
      limitToStringAux (pcellListToString under) (pcellListToString base)

/-- Cell::ListToString: concatenation of the renderings along a cell chain
(modelled from the spec: the chain-walking list renderer is outside the
given sources; fragments accumulate left-to-right). -/
def pcellListToString : List PCell → String
  | [] => ""
  | c :: cs => pcellToString c ++ pcellListToString cs
end

/-- The rendering `m_nameCell->ToString()` of the head cell of a chain. -/
def headToString (l : List PCell) : String :=
  match l with
  | [] => ""
  | c :: _ => pcellToString c

/-! ## TeX serialization -/

/-- The string-level part of LimitCell::ToTeX: locate `->` (or its typeset
form) in the rendered "under" string and emit a `\lim_` form. -/
def limitToTeXAux (under base : String) : String :=
  let varEnd0 := wxFind under "->"
  let p :=
    if varEnd0 = -1 then
      let varEnd1 := wxFind under "\\mbox\x7b\\rightarrow \x7d"
      if varEnd1 ≠ -1 then (varEnd1 - 1, varEnd1 + 19) else (varEnd1, 0)
    else (varEnd0 - 1, varEnd0 + 2)
  let var := wxSubString under 0 p.1
  let toV := wxSubString under p.2 (wxLen under - 1)
  "\\lim_\x7b" ++ var ++ "\\to " ++ toV ++ "\x7d\x7b" ++ base ++ "\x7d"

mutual
/-- Cell::ToTeX per cell type.  `textC` renders its value (modelled: the
text-cell TeX renderer is outside the given sources).  `funC` follows
FunCell::ToTeX (FunCell.cpp 124-147): empty when broken; a fixed list of
known function names is rendered as a backslash command applied to the
argument, every other name as plain concatenation.  `limitC` follows
LimitCell::ToTeX (LimitCell.cpp 177-203). -/
def pcellToTeX : PCell → String
  | .textC _ v => v
  | .funC c name arg =>
      if c.isBrokenIntoLines then ""
      else
        let n := headToString name
        if n = "sin" ∨ n = "cos" ∨ n = "cosh" ∨ n = "sinh" ∨ n = "log" ∨
           n = "cot" ∨ n = "sec" ∨ n = "csc" ∨ n = "tan" then
          "\\" ++ n ++ "\x7b" ++ pcellListToTeX arg ++ "\x7d"
        else
          pcellListToTeX name ++ pcellListToTeX arg
  | .limitC _ _ under base =>
      limitToTeXAux (pcellListToTeX under) (pcellListToTeX base)

/-- Cell::ListToTeX: concatenation along a cell chain (modelled from the
spec, as for `pcellListToString`). -/
def pcellListToTeX : List PCell → String
  | [] => ""
  | c :: cs => pcellToTeX c ++ pcellListToTeX cs
end

/-! ## The XML tree

wxXmlNode sibling lists become Lean lists; an element node carries its
tag name, attribute list and child list, a text node its content. -/

inductive XmlNode where
  | elem (name : String) (attrs : List (String × String)) (children : List XmlNode)
  | text (content : String)

/-- wxXmlNode::GetChildren as a list. -/
def xmlChildren : XmlNode → List XmlNode
  | .elem _ _ cs => cs
  | .text _ => []

/-- wxXmlNode::GetContent: the content of a text node, empty for elements. -/
def nodeContent : XmlNode → String
  | .text c => c
  | .elem _ _ _ => ""

/-- wxXmlNode::GetAttribute without a default: the attribute value when
present. -/
def xmlGetAttr (node : XmlNode) (key : String) : Option String :=
  match node with
  | .elem _ attrs _ => (attrs.find? (fun p => p.1 = key)).map Prod.snd
  | .text _ => none

/-- wxXmlNode::GetAttribute with a default value. -/
def xmlGetAttrD (node : XmlNode) (key dflt : String) : String :=
  (xmlGetAttr node key).getD dflt

/-- MathParser::SkipWhitespaceNode (MathParser.cpp 62-77): if the first
node is a text node whose right-trimmed content has length at most 1, it
is skipped (once). -/
def SkipWhitespaceNode : List XmlNode → List XmlNode
  | XmlNode.text content :: rest =>
      if wxLen (wxTrim content) ≤ 1 then rest else XmlNode.text content :: rest
  | l => l

/-- MathParser::GetNextTag (MathParser.cpp 79-84): advance one sibling,
then skip a whitespace text node. -/
def GetNextTag : List XmlNode → List XmlNode
  | [] => []
  | _ :: rest => SkipWhitespaceNode rest

/-! ## Parser state and shared attribute application -/

/-- The per-parser mutable state consulted by the embedded construction
routines (m_ParserStyle and m_highlight; m_FracStyle is only consulted by
the fraction routine, which no claim touches). -/
structure PState where
  parserStyle : CellType
  highlight : Bool
deriving DecidableEq, Repr

/-- MathParser::ParseCommonAttrs (MathParser.cpp 802-816) on one cell:
apply breakline, tooltip and altCopy attributes. -/
def ParseCommonAttrsCell (node : XmlNode) (cell : PCell) : PCell :=
  let cell := if xmlGetAttrD node "breakline" "false" = "true" then cell.forceBreakLine true else cell
  let cell := match xmlGetAttr node "tooltip" with
    | some v => cell.setToolTip v
    | none => cell
  match xmlGetAttr node "altCopy" with
  | some v => cell.withCommon (fun cd => { cd with altCopy := v })
  | none => cell

/-- ParseCommonAttrs on a fragment: applied to the head cell; a null cell
is a no-op. -/
def ParseCommonAttrsList (node : XmlNode) : List PCell → List PCell
  | [] => []
  | c :: cs => ParseCommonAttrsCell node c :: cs

/-- ParseCommonAttrs when the node itself may be null. -/
def ParseCommonAttrsOpt (node : Option XmlNode) (l : List PCell) : List PCell :=
  match node with
  | none => l
  | some n => ParseCommonAttrsList n l

/-! ## Null-child recovery -/

def bugMissingToolTip : String :=
  "The xml data from maxima or from the .wxmx file was missing data here.\nIf you find a way how to reproduce this problem please file a bug report against wxMaxima."

/-- The placeholder text cell HandleNullPointer builds: the text
"Bug: Missing contents" with a diagnostic tooltip, styled TS_ERROR. -/
def bugMissingContentsCell : PCell :=
  ((PCell.textC { } "Bug: Missing contents").setToolTip bugMissingToolTip).setStyle TextStyle.TS_ERROR

/-- MathParser::HandleNullPointer (MathParser.cpp 480-492): a null
fragment is replaced by the visibly-marked, error-styled placeholder
with a diagnostic tooltip. -/
def HandleNullPointer (cells : List PCell) : List PCell :=
  match cells with
  | [] => [bugMissingContentsCell]
  | l => l

/-- Modelled from the spec: the tooltip the invalid-cell placeholder
carries (the placeholder cell class is outside the given sources; per the
spec a missing child is replaced by a visibly-marked placeholder carrying
a diagnostic tooltip). -/
def invalidCellToolTip : String := "The cell is missing its contents."

/-- Modelled from the spec: the visibly-marked "invalid" placeholder cell
substituted for a null required child (the class itself is outside the
given sources): a visibly marked, error-styled text cell with a
diagnostic tooltip. -/
def visiblyInvalidCell : PCell :=
  PCell.textC { style := TextStyle.TS_ERROR, toolTip := some invalidCellToolTip } "(invalid)"

/-- Modelled from the spec: InvalidCellOr (declared in the cell headers,
outside the given sources): pass a non-null child through, substitute the
visibly-marked placeholder for null. -/
def InvalidCellOr (cells : List PCell) : List PCell :=
  match cells with
  | [] => [visiblyInvalidCell]
  | l => l

/-- FunCell::SetName (FunCell.cpp 49-53): install InvalidCellOr(name) and
restyle the installed head cell with TS_FUNCTION. -/
def FunCell_SetName (name : List PCell) : List PCell :=
  match InvalidCellOr name with
  | [] => []
  | c :: cs => c.setStyle TextStyle.TS_FUNCTION :: cs

/-- FunCell::SetArg (FunCell.cpp 55-58). -/
def FunCell_SetArg (arg : List PCell) : List PCell :=
  InvalidCellOr arg

/-- LimitCell::SetName (LimitCell.cpp 64). -/
def LimitCell_SetName (name : List PCell) : List PCell :=
  InvalidCellOr name

/-- LimitCell::SetBase (LimitCell.cpp 66). -/
def LimitCell_SetBase (base : List PCell) : List PCell :=
  InvalidCellOr base

/-- LimitCell::SetUnder (LimitCell.cpp 68). -/
def LimitCell_SetUnder (under : List PCell) : List PCell :=
  InvalidCellOr under

/-! ## ParseText and the spec-modelled variable-name routine -/

/-- The switch in ParseText (MathParser.cpp 753-774) choosing the cell
type from the text style. -/
def typeForTextStyle (st : PState) : TextStyle → CellType
  | TextStyle.TS_ERROR => CellType.MC_TYPE_ERROR
  | TextStyle.TS_WARNING => CellType.MC_TYPE_WARNING
  | TextStyle.TS_LABEL => CellType.MC_TYPE_LABEL
  | TextStyle.TS_USERLABEL => CellType.MC_TYPE_LABEL
  | _ => st.parserStyle

/-- One text cell built by ParseText for one line of content. -/
def textCellFor (st : PState) (style : TextStyle) (value : String) : PCell :=
  PCell.textC { cellType := typeForTextStyle st style, style := style,
                highlight := st.highlight } value

/-- MathParser::ParseText (MathParser.cpp 742-794): replace "-" by the
unicode minus sign, split the content into lines (empty tokens skipped),
build one styled text cell per line (every cell after the first carries a
forced line break), fall back to a single empty text cell when nothing
was produced, and apply the common attributes of the node. -/
def ParseText (st : PState) (node : Option XmlNode) (style : TextStyle) : List PCell :=
  let str := match node with
    | some n => nodeContent n
    | none => ""
  let cells : List PCell :=
    if node.isSome ∧ str ≠ "" then
      match wxTokenizeLines (wxReplaceMinus str) with
      | [] => []
      | t :: ts =>
          textCellFor st style t ::
            ts.map (fun u => (textCellFor st style u).forceBreakLine true)
    else []
  let cells := match cells with
    | [] => [PCell.textC { } ""]
    | l => l
  ParseCommonAttrsOpt node cells

/-- Modelled from the spec: the construction routine registered for the
variable-name tags v and mi (its definition is outside the given
sources); per the spec grammar it builds a variable-name text cell from
the element's text content. -/
def ParseVariableNameTag (st : PState) (node : XmlNode) : List PCell :=
  let content := match xmlChildren node with
    | t :: _ => nodeContent t
    | [] => ""
  [PCell.textC { cellType := st.parserStyle, style := TextStyle.TS_VARIABLE,
                 highlight := st.highlight } content]

/-! ## The ParseTag sibling loop

The loop of MathParser::ParseTag (MathParser.cpp 1012-1098) is
translated into explicit loop-state passing.  The state carries the
owned return chain (`retval`), the chain owned by the local `ownedCell`
before it is moved into `retval` (`owned`, with `cellInOwned` recording
which chain the raw `cell` cursor points into), the index of the `cell`
cursor inside that chain (`none` = null), the one-warning throttle flag
and the number of user-facing warnings emitted so far. -/

structure LoopSt where
  retval : List PCell
  owned : List PCell
  cellInOwned : Bool
  cellIdx : Option Nat
  warning : Bool
  warns : Nat

/-- The loop-entry state: `bool warning = all;` and everything else null. -/
def LoopSt.start (all : Bool) : LoopSt :=
  ⟨[], [], false, none, all, 0⟩

/-- The fragment-append block of the sibling loop (MathParser.cpp
1039-1050), translated faithfully: the condition in the source is
`if (!tmp)`, so only a *null* routine result reaches the append code
(where appending it is a no-op), while a non-null parsed fragment is
dropped when `tmp` goes out of scope. -/
def parseTagAppend (tmp : List PCell) (s : LoopSt) : LoopSt :=
  if tmp.isEmpty then
    -- ParseCommonAttrs(node, tmp) on the null tmp is a no-op.
    if s.cellIdx = none then
      -- cell = tmp.get() (null); ownedCell = std::move(tmp) (null).
      { s with owned := [], cellInOwned := false, cellIdx := none }
    else s
    -- else: cell->AppendCell(std::move(tmp)) appends nothing.
  else s

/-- The text-node branch of the sibling loop (MathParser.cpp 1052-1062):
a fresh text chain either becomes the owned chain with the cursor on its
head, or is appended at the end of the chain the cursor points into
(Cell::AppendCell walks to the end of the chain before linking, per the
spec). -/
def parseTagTextAppend (txt : List PCell) (s : LoopSt) : LoopSt :=
  if s.cellIdx = none then
    { s with owned := txt, cellInOwned := true, cellIdx := some 0 }
  else if s.cellInOwned then { s with owned := s.owned ++ txt }
  else { s with retval := s.retval ++ txt }

/-- The tail of one loop iteration (MathParser.cpp 1064-1089): when the
cursor is non-null, move the owned chain into the return value the first
time, otherwise advance the cursor one cell; when it is null, the
warning throttle would fire, but the reported name is computed from the
null cursor cell and is therefore always empty, so the message box is
never shown. -/
def parseTagIterTail (all : Bool) (s : LoopSt) : LoopSt :=
  if s.cellIdx ≠ none then
    if s.retval.isEmpty then { s with retval := s.owned, owned := [], cellInOwned := false }
    else
      let chain := if s.cellInOwned then s.owned else s.retval
      { s with cellIdx := match s.cellIdx with
          | some i => if i + 1 < chain.length then some (i + 1) else none
          | none => none }
  else if s.warning ∧ ¬ all then
    -- wxString name; name.Trim(true); name.Trim(false);
    -- if (cell) name = cell->ToString();  -- cell is null on this branch
    let name : String := ""
    if name.length ≠ 0 then { s with warns := s.warns + 1, warning := false } else s
  else s

/-- The call kinds of the mutually recursive parser entry points that the
claims exercise. -/
inductive PCall where
  | tagCall (nodes : List XmlNode) (all : Bool) (s : LoopSt)
  | funTagCall (node : XmlNode)
  | limitTagCall (node : XmlNode)
  | contentsCall (node : XmlNode)

def funLambdaToolTip : String :=
  "If this isn\x27t a function returning a lambda() expression, a multiplication sign (*) between closing and opening parenthesis is missing here."

/-- The mutually recursive core of the parser, with a fuel parameter for
recursion depth (`none` = fuel exhausted).  `tagCall` is the sibling
loop of MathParser::ParseTag; `funTagCall` is MathParser::ParseFunTag
(MathParser.cpp 724-740); `limitTagCall` is MathParser::ParseLimitTag
(MathParser.cpp 902-916); `contentsCall` is MathParser::ParseTagContents
(MathParser.cpp 167-172).  The inline dispatch table m_innerTags is
embedded for the tags these routines and the claims exercise (v, mi, fn,
lm, r, mrow); looking up any other tag name yields no routine, exactly as
an unregistered tag does in the source. -/
def parseRun : Nat → PState → PCall → Option (LoopSt ⊕ (List PCell × Nat))
  | 0, _, _ => none
  | fuel + 1, st, call =>
    let sub : List XmlNode → Bool → Option (List PCell × Nat) := fun nodes all =>
      match parseRun fuel st (PCall.tagCall (SkipWhitespaceNode nodes) all (LoopSt.start all)) with
      | some (Sum.inl s) => some (s.retval, s.warns)
      | _ => none
    match call with
    | PCall.contentsCall node =>
        if !(xmlChildren node).isEmpty then (sub (xmlChildren node) true).map Sum.inr
        else some (Sum.inr ([], 0))
    | PCall.funTagCall node => do
        let child0 := SkipWhitespaceNode (xmlChildren node)
        let r1 ← sub child0 false
        let nameChain := FunCell_SetName (HandleNullPointer r1.1)
        let child1 := GetNextTag child0
        let r2 ← sub child1 false
        let argChain := FunCell_SetArg (HandleNullPointer r2.1)
        let common : CommonData := { cellType := st.parserStyle, style := TextStyle.TS_FUNCTION }
        let fc := ParseCommonAttrsCell node (PCell.funC common nameChain argChain)
        let fc := if wxContains (pcellToString fc) ")(" then fc.setToolTip funLambdaToolTip else fc
        some (Sum.inr ([fc], r1.2 + r2.2))
    | PCall.limitTagCall node => do
        let child0 := SkipWhitespaceNode (xmlChildren node)
        let r1 ← sub child0 false
        let nameChain := LimitCell_SetName (HandleNullPointer r1.1)
        let child1 := GetNextTag child0
        let r2 ← sub child1 false
        let underChain := LimitCell_SetUnder (HandleNullPointer r2.1)
        let child2 := GetNextTag child1
        let r3 ← sub child2 false
        let baseChain := LimitCell_SetBase (HandleNullPointer r3.1)
        let common : CommonData := { cellType := st.parserStyle, style := TextStyle.TS_VARIABLE }
        let lc := ParseCommonAttrsCell node (PCell.limitC common nameChain underChain baseChain)
        some (Sum.inr ([lc], r1.2 + r2.2 + r3.2))
    | PCall.tagCall [] _ s => some (Sum.inl s)
    | PCall.tagCall (node :: rest) all s =>
      match node with
      | XmlNode.elem tagName _ children => do
          let tmpW ←
            if tagName = "v" ∨ tagName = "mi" then
              some (ParseVariableNameTag st node, 0)
            else if tagName = "fn" then
              match parseRun fuel st (PCall.funTagCall node) with
              | some (Sum.inr r) => some r
              | _ => none
            else if tagName = "lm" then
              match parseRun fuel st (PCall.limitTagCall node) with
              | some (Sum.inr r) => some r
              | _ => none
            else if tagName = "r" ∨ tagName = "mrow" then
              match parseRun fuel st (PCall.contentsCall node) with
              | some (Sum.inr r) => some r
              | _ => none
            else
              some (([] : List PCell), 0)
          -- if (!tmp && node->GetChildren()) tmp = ParseTag(node->GetChildren());
          let tmp2 ← if tmpW.1.isEmpty && !children.isEmpty then sub children true else some (tmpW.1, 0)
          let s1 := { s with warns := s.warns + tmpW.2 + tmp2.2 }
          let s2 := parseTagAppend tmp2.1 s1
          let s3 := parseTagIterTail all s2
          if all then parseRun fuel st (PCall.tagCall (GetNextTag (node :: rest)) all s3)
          else some (Sum.inl s3)
      | XmlNode.text _ =>
          let txt := ParseText st (some node) TextStyle.TS_DEFAULT
          let s2 := parseTagTextAppend txt s
          let s3 := parseTagIterTail all s2
          if all then parseRun fuel st (PCall.tagCall (GetNextTag (node :: rest)) all s3)
          else some (Sum.inl s3)

/-- MathParser::ParseTag (MathParser.cpp 1012-1098): skip leading
whitespace, run the sibling loop, and return the collected fragment and
the number of user-facing warnings emitted. -/
def ParseTag (fuel : Nat) (st : PState) (nodes : List XmlNode) (all : Bool) :
    Option (List PCell × Nat) :=
  match parseRun fuel st (PCall.tagCall (SkipWhitespaceNode nodes) all (LoopSt.start all)) with
  | some (Sum.inl s) => some (s.retval, s.warns)
  | _ => none

/-- MathParser::ParseFunTag as a callable entry point. -/
def ParseFunTag (fuel : Nat) (st : PState) (node : XmlNode) : Option (List PCell × Nat) :=
  match parseRun fuel st (PCall.funTagCall node) with
  | some (Sum.inr r) => some r
  | _ => none

/-- MathParser::ParseLimitTag as a callable entry point. -/
def ParseLimitTag (fuel : Nat) (st : PState) (node : XmlNode) : Option (List PCell × Nat) :=
  match parseRun fuel st (PCall.limitTagCall node) with
  | some (Sum.inr r) => some r
  | _ => none

/-! ## ParseLine -/

/-- The switch on the configured ShowLength() preset (MathParser.cpp
1109-1125): 0 chars = preset 6000, 1 = 20000, 2 = 250000, 3 = unlimited
(encoded 0), anything else 50000. -/
def showLengthOf (setting : Int) : Int :=
  if setting = 0 then 6000
  else if setting = 1 then 20000
  else if setting = 2 then 250000
  else if setting = 3 then 0
  else 50000

def tooLongToolTip : String :=
  "The maximum size of the expressions wxMaxima is allowed to display can be changed in the configuration dialogue."

/-- The warning cell ParseLine substitutes for an oversized expression
(MathParser.cpp 1140-1146): a TS_WARNING text cell with an explanatory
tooltip and a forced line break. -/
def tooLongCell : PCell :=
  ((PCell.textC { style := TextStyle.TS_WARNING }
      "(Expression longer than allowed by the configuration setting)").setToolTip
        tooLongToolTip).forceBreakLine true

/-- MathParser::ParseLine (MathParser.cpp 1100-1149).  The external XML
loader (wxXmlDocument::Load + GetRoot) is passed in as `loadXml`; the
configured ShowLength() preset as `showLengthSetting`.  Control
characters are first replaced by U+FFFD; if the resulting string is
shorter than the effective threshold (or the threshold is 0 =
unlimited), the XML is loaded and the root's children handed to
ParseTag, otherwise the single warning cell is returned and no XML is
ever loaded. -/
def ParseLine (fuel : Nat) (loadXml : String → Option XmlNode)
    (showLengthSetting : Int) (style : CellType) (s : String) : Option (List PCell) :=
  if wxLen (graphRegexReplace s) < showLengthOf showLengthSetting ∨
      showLengthOf showLengthSetting = 0 then
    match loadXml (graphRegexReplace s) with
    | some doc =>
        (ParseTag fuel { parserStyle := style, highlight := false } (xmlChildren doc) true).map
          Prod.fst
    | none => some []
  else
    some [tooLongCell]

/-! ## The fold-assembly loop of ParseCellTag -/

/-- The state of the fold-assembly loop of MathParser::ParseCellTag
(MathParser.cpp 379-405): the remaining sibling list and the folded
chain assembled so far (the `tree`/`last` pair of the source, with
`last` always the end of the assembled chain). -/
structure FoldLoopState where
  xmlcells : List XmlNode
  tree : List PCell

/-- One iteration of the fold-assembly loop (MathParser.cpp 384-404):
`Sum.inl` = the loop continues with the given state, `Sum.inr` = the
loop exits, `none` = inner fuel exhaustion.  When the parsed fragment is
absent the source executes `continue`, skipping the
`xmlcells = GetNextTag(xmlcells)` advance, so the state is returned
unchanged. -/
def ParseCellTag_foldStep (fuel : Nat) (st : PState) (s : FoldLoopState) :
    Option (FoldLoopState ⊕ FoldLoopState) :=
  match s.xmlcells with
  | [] => some (Sum.inr s)
  | _ :: _ =>
    match ParseTag fuel st s.xmlcells false with
    | none => none
    | some (chain, _) =>
      if chain.isEmpty then some (Sum.inl s)
      else some (Sum.inl { xmlcells := GetNextTag s.xmlcells,
                           tree := if s.tree.isEmpty then chain else s.tree ++ chain })

/-- Run the fold-assembly loop for at most `n` iterations: `some` = the
loop exited normally with the final state, `none` = it was still
running after `n` iterations (or inner fuel ran out). -/
def ParseCellTag_foldRun (fuel : Nat) (st : PState) : Nat → FoldLoopState → Option FoldLoopState
  | 0, _ => none
  | n + 1, s =>
    match ParseCellTag_foldStep fuel st s with
    | some (Sum.inr sExit) => some sExit
    | some (Sum.inl s2) => ParseCellTag_foldRun fuel st n s2
    | none => none

/-! ## The layout state machine of FunCell and LimitCell

For the measurement and line-breaking claims the two cell types are
modelled as state records.  A child sub-chain enters the measurement
code only through its list metrics (GetFullWidth, GetHeightList,
GetCenterList, GetMaxDrop) after being recalculated at some font size;
each child is therefore abstracted to those metrics as functions of the
font size it was recalculated at.  The draw-chain links rewritten by
BreakUp are modelled explicitly. -/

/-- A next-to-draw link target: null, one of the sub-chain heads /
auxiliary cells of the owning cell, or some external cell. -/
inductive DrawLink where
  | nullLink
  | nameHead
  | argHead
  | openCell
  | commaCell
  | underHead
  | baseHead
  | closeCell
  | external (n : Nat)
deriving DecidableEq, Repr

/-- The list metrics of a child sub-chain, as functions of the font size
the chain was last recalculated at. -/
structure ChildMetrics where
  fullWidth : Int → Int
  heightList : Int → Int
  centerList : Int → Int
  maxDrop : Int → Int

/-- The base-class state every cell carries: the cached metrics, the
font size they were last computed at (`none` = never computed / marked
stale), the broken-into-lines flag and the stored next-to-draw link. -/
structure CellBase where
  width : Int
  height : Int
  center : Int
  fontSizeOld : Option Int
  isBrokenIntoLines : Bool
  nextToDraw : DrawLink
deriving DecidableEq, Repr

/-- Modelled from the spec: Cell::NeedsRecalculation (outside the given
sources).  Per the spec, cached width/height are valid only for the font
size they were computed at; a request at a different font size (or
before any computation, or after the metrics were marked stale) must be
treated as stale and recomputed. -/
def NeedsRecalculation (fontsize : Int) (b : CellBase) : Bool :=
  b.fontSizeOld ≠ some fontsize

/-- Modelled from the spec: Cell::ResetData (outside the given sources)
marks the cached metrics stale, forcing the next measurement to
recompute. -/
def ResetData (b : CellBase) : CellBase :=
  { b with fontSizeOld := none }

/-- Modelled from the spec: the base-class tail call
Cell::RecalculateWidths (outside the given sources).  The width pass
runs before the height pass at the same font size, so the base class
leaves the guard state to the height pass. -/
def Cell_RecalculateWidths (_fontsize : Int) (b : CellBase) : CellBase :=
  b

/-- Modelled from the spec: the base-class tail call
Cell::RecalculateHeight (outside the given sources) records the font
size the metrics are now valid for. -/
def Cell_RecalculateHeight (fontsize : Int) (b : CellBase) : CellBase :=
  { b with fontSizeOld := some fontsize }

/-- The GUI-toolkit scaling service, consumed through Scale_Px. -/
structure Configuration where
  scalePx : Int → Int

/-- The state of a function-application cell: base state, the name and
argument child chains (by their metrics), and the next-to-draw links of
the last cells of the two chains. -/
structure FunCellState where
  base : CellBase
  nameCell : ChildMetrics
  argCell : ChildMetrics
  nameLastNext : DrawLink
  argLastNext : DrawLink

/-- FunCell::RecalculateWidths (FunCell.cpp 60-72): early return unless
recalculation is needed; otherwise recalculate both children at the
requested size, set width = name + argument - Scale_Px(1), overwrite the
width with 0 when broken into lines, and run the base-class tail. -/
def FunCell_RecalculateWidths (cfg : Configuration) (fontsize : Int) (s : FunCellState) :
    FunCellState :=
  if ¬ NeedsRecalculation fontsize s.base then s
  else
    let w := s.nameCell.fullWidth fontsize + s.argCell.fullWidth fontsize - cfg.scalePx 1
    let w := if s.base.isBrokenIntoLines then 0 else w
    { s with base := Cell_RecalculateWidths fontsize { s.base with width := w } }

/-- FunCell::RecalculateHeight (FunCell.cpp 74-89): early return unless
recalculation is needed; when not broken, center = max of the children's
centers and height = center + max of the children's drops; when broken,
height = 0; then the base-class tail. -/
def FunCell_RecalculateHeight (fontsize : Int) (s : FunCellState) : FunCellState :=
  if ¬ NeedsRecalculation fontsize s.base then s
  else
    if ¬ s.base.isBrokenIntoLines then
      let c := max (s.nameCell.centerList fontsize) (s.argCell.centerList fontsize)
      let h := c + max (s.nameCell.maxDrop fontsize) (s.argCell.maxDrop fontsize)
      { s with base := Cell_RecalculateHeight fontsize { s.base with center := c, height := h } }
    else
      { s with base := Cell_RecalculateHeight fontsize { s.base with height := 0 } }

/-- One full measurement pass of a function-application cell: the width
pass followed by the height pass at the same font size. -/
def FunCell_Recalculate (cfg : Configuration) (fontsize : Int) (s : FunCellState) : FunCellState :=
  FunCell_RecalculateHeight fontsize (FunCell_RecalculateWidths cfg fontsize s)

/-- FunCell::BreakUp (FunCell.cpp 174-185): on a broken cell return
false and change nothing; otherwise set the broken flag, splice the
argument chain after the name chain in the draw order, link the end of
the argument chain to the cell's stored next-to-draw target, zero the
width, mark the metrics stale, and return true. -/
def FunCell_BreakUp (s : FunCellState) : Bool × FunCellState :=
  if s.base.isBrokenIntoLines then (false, s)
  else
    (true,
      { s with
        base := ResetData { s.base with isBrokenIntoLines := true, width := 0 },
        nameLastNext := DrawLink.argHead,
        argLastNext := s.base.nextToDraw })

/-- MIN_LIMIT_FONT_SIZE and LIMIT_FONT_SIZE_DECREASE (LimitCell.cpp
32-33): the "under" chain is recalculated at fontsize - 1, bounded below
by 8. -/
def limitUnderFontSize (fontsize : Int) : Int :=
  max 8 (fontsize - 1)

/-- The state of a limit cell: base state, the name/under/base child
chains and the three auxiliary punctuation cells (by their metrics), and
the next-to-draw links BreakUp rewrites. -/
structure LimitCellState where
  base : CellBase
  nameCell : ChildMetrics
  underCell : ChildMetrics
  baseCell : ChildMetrics
  openCell : ChildMetrics
  commaCell : ChildMetrics
  closeCell : ChildMetrics
  nameLastNext : DrawLink
  openNext : DrawLink
  baseLastNext : DrawLink
  commaNext : DrawLink
  underLastNext : DrawLink
  closeNext : DrawLink

/-- LimitCell::RecalculateWidths (LimitCell.cpp 70-90): early return
unless recalculation is needed; the "under" chain is recalculated at the
reduced font size; when not broken, width = max(name, under) + base,
when broken, width = 0; then the base-class tail. -/
def LimitCell_RecalculateWidths (fontsize : Int) (s : LimitCellState) : LimitCellState :=
  if ¬ NeedsRecalculation fontsize s.base then s
  else
    let w :=
      if ¬ s.base.isBrokenIntoLines then
        max (s.nameCell.fullWidth fontsize) (s.underCell.fullWidth (limitUnderFontSize fontsize))
          + s.baseCell.fullWidth fontsize
      else 0
    { s with base := Cell_RecalculateWidths fontsize { s.base with width := w } }

/-- LimitCell::RecalculateHeight (LimitCell.cpp 92-116): early return
unless recalculation is needed; when not broken, center = max(base,
name) and height = center + max(name drop + under height, base drop);
when broken, height and center become the name chain's height and
center; then the base-class tail. -/
def LimitCell_RecalculateHeight (fontsize : Int) (s : LimitCellState) : LimitCellState :=
  if ¬ NeedsRecalculation fontsize s.base then s
  else
    if ¬ s.base.isBrokenIntoLines then
      let c := max (s.baseCell.centerList fontsize) (s.nameCell.centerList fontsize)
      let h := c + max (s.nameCell.maxDrop fontsize
                          + s.underCell.heightList (limitUnderFontSize fontsize))
                       (s.baseCell.maxDrop fontsize)
      { s with base := Cell_RecalculateHeight fontsize { s.base with center := c, height := h } }
    else
      let b := { s.base with height := s.nameCell.heightList fontsize,
                             center := s.nameCell.centerList fontsize }
      { s with base := Cell_RecalculateHeight fontsize b }

/-- One full measurement pass of a limit cell. -/
def LimitCell_Recalculate (fontsize : Int) (s : LimitCellState) : LimitCellState :=
  LimitCell_RecalculateHeight fontsize (LimitCell_RecalculateWidths fontsize s)

/-- LimitCell::BreakUp (LimitCell.cpp 240-254): on a broken cell return
false and change nothing; otherwise set the broken flag, splice
name - ( - base - , - under - ) into the draw order, link the close
parenthesis to the cell's stored next-to-draw target, mark the metrics
stale, and return true. -/
def LimitCell_BreakUp (s : LimitCellState) : Bool × LimitCellState :=
  if s.base.isBrokenIntoLines then (false, s)
  else
    (true,
      { s with
        base := ResetData { s.base with isBrokenIntoLines := true },
        nameLastNext := DrawLink.openCell,
        openNext := DrawLink.baseHead,
        baseLastNext := DrawLink.commaCell,
        commaNext := DrawLink.underHead,
        underLastNext := DrawLink.closeCell,
        closeNext := s.base.nextToDraw })

/-! ## Helper projections and concrete instances used by the theorems -/

/-- The style of the head cell of a chain, if any. -/
def headStyle (l : List PCell) : Option TextStyle :=
  match l with
  | c :: _ => some c.common.style
  | [] => none

/-- The tooltip of the head cell of a chain, if any. -/
def headToolTip (l : List PCell) : Option String :=
  match l with
  | c :: _ => c.common.toolTip
  | [] => none

/-- The name chain of a function-application cell. -/
def funName : PCell → List PCell
  | .funC _ n _ => n
  | _ => []

/-- The argument chain of a function-application cell. -/
def funArg : PCell → List PCell
  | .funC _ _ a => a
  | _ => []

/-- The parser state ParseLine installs for a default-style parse. -/
def defaultPState : PState := ⟨CellType.MC_TYPE_DEFAULT, false⟩

/-- A minimal well-formed instance of the fn tag, as FunCell::ToXML
emits it: a name wrapped in an r tag followed by the argument. -/
def fnMinimalNode : XmlNode :=
  XmlNode.elem "fn" [] [XmlNode.elem "r" [] [XmlNode.text "foo"],
                        XmlNode.elem "r" [] [XmlNode.text "(x)"]]

/-- The unknown-wrapper-tag example of the spec:
bogus wrapping a variable-name element. -/
def bogusNode : XmlNode :=
  XmlNode.elem "bogus" [] [XmlNode.elem "v" [] [XmlNode.text "x"]]

/-- A fold-loop state whose head sibling parses to an absent fragment
(an unknown childless element). -/
def foldStuckState : FoldLoopState :=
  ⟨[XmlNode.elem "bogus" [] []], []⟩

/-- Constant child metrics. -/
def cmK (w h c d : Int) : ChildMetrics :=
  ⟨fun _ => w, fun _ => h, fun _ => c, fun _ => d⟩

/-- A one-pixel-per-unit scaling configuration. -/
def exCfg : Configuration := ⟨fun n => n⟩

def exBaseUnbroken : CellBase :=
  ⟨-1, -1, -1, none, false, DrawLink.external 5⟩

def exBaseBroken : CellBase :=
  ⟨-1, -1, -1, none, true, DrawLink.external 5⟩

def exFunUnbroken : FunCellState :=
  ⟨exBaseUnbroken, cmK 30 20 8 12, cmK 40 22 9 13, DrawLink.nullLink, DrawLink.nullLink⟩

def exFunBroken : FunCellState :=
  ⟨exBaseBroken, cmK 30 20 8 12, cmK 40 22 9 13, DrawLink.nullLink, DrawLink.nullLink⟩

def exLimitUnbroken : LimitCellState :=
  ⟨exBaseUnbroken, cmK 30 20 8 12, cmK 25 15 6 9, cmK 40 22 9 13,
   cmK 5 10 4 5, cmK 5 10 4 5, cmK 5 10 4 5,
   DrawLink.nullLink, DrawLink.nullLink, DrawLink.nullLink,
   DrawLink.nullLink, DrawLink.nullLink, DrawLink.nullLink⟩

def exLimitBroken : LimitCellState :=
  ⟨exBaseBroken, cmK 30 20 8 12, cmK 25 15 6 9, cmK 40 22 9 13,
   cmK 5 10 4 5, cmK 5 10 4 5, cmK 5 10 4 5,
   DrawLink.nullLink, DrawLink.nullLink, DrawLink.nullLink,
   DrawLink.nullLink, DrawLink.nullLink, DrawLink.nullLink⟩

/-! ## Facts about the measurement guard -/

/-- After a full measurement pass a function-application cell's metrics
are recorded as valid for exactly the font size of the pass. -/
theorem FunCell_Recalculate_fontSizeOld (cfg : Configuration) (fs : Int) (s : FunCellState) :
    (FunCell_Recalculate cfg fs s).base.fontSizeOld = some fs := by
  unfold FunCell_Recalculate
  generalize hW : FunCell_RecalculateWidths cfg fs s = s1
  have hpres : s1.base.fontSizeOld = s.base.fontSizeOld := by
    rw [← hW]
    unfold FunCell_RecalculateWidths Cell_RecalculateWidths
    split <;> rfl
  have hpres2 : NeedsRecalculation fs s1.base = NeedsRecalculation fs s.base := by
    simp [NeedsRecalculation, hpres]
  unfold FunCell_RecalculateHeight Cell_RecalculateHeight
  split
  · rename_i hg
    simpa [NeedsRecalculation] using hg
  · split <;> rfl

/-- After a full measurement pass a limit cell's metrics are recorded as
valid for exactly the font size of the pass. -/
theorem LimitCell_Recalculate_fontSizeOld (fs : Int) (s : LimitCellState) :
    (LimitCell_Recalculate fs s).base.fontSizeOld = some fs := by
  unfold LimitCell_Recalculate
  generalize hW : LimitCell_RecalculateWidths fs s = s1
  have hpres : s1.base.fontSizeOld = s.base.fontSizeOld := by
    rw [← hW]
    unfold LimitCell_RecalculateWidths Cell_RecalculateWidths
    split <;> rfl
  unfold LimitCell_RecalculateHeight Cell_RecalculateHeight
  split
  · rename_i hg
    simpa [NeedsRecalculation] using hg
  · split <;> rfl

/-! ## Claim C4: BreakUp is one-way and idempotent -/

/-- C4: for the function-application and limit cell types, BreakUp is
one-way and idempotent: on an unbroken cell it returns true and sets the
broken-into-lines flag; on a broken cell it returns false and leaves the
whole state (flag and draw-chain links included) unchanged, so every
call after the first is a no-op returning false; the result of any
BreakUp is always in the broken state, and the measurement passes never
clear the flag, so no modelled operation returns a cell to the unbroken
state. -/
theorem claim_C4_breakUp_one_way_idempotent :
    ∀ (sF : FunCellState) (sL : LimitCellState) (cfg : Configuration) (fs : Int),
      (sF.base.isBrokenIntoLines = true → FunCell_BreakUp sF = (false, sF)) ∧
      (sF.base.isBrokenIntoLines = false →
        (FunCell_BreakUp sF).1 = true ∧ (FunCell_BreakUp sF).2.base.isBrokenIntoLines = true) ∧
      FunCell_BreakUp (FunCell_BreakUp sF).2 = (false, (FunCell_BreakUp sF).2) ∧
      (FunCell_BreakUp sF).2.base.isBrokenIntoLines = true ∧
      (FunCell_RecalculateWidths cfg fs sF).base.isBrokenIntoLines = sF.base.isBrokenIntoLines ∧
      (FunCell_RecalculateHeight fs sF).base.isBrokenIntoLines = sF.base.isBrokenIntoLines ∧
      (sL.base.isBrokenIntoLines = true → LimitCell_BreakUp sL = (false, sL)) ∧
      (sL.base.isBrokenIntoLines = false →
        (LimitCell_BreakUp sL).1 = true ∧ (LimitCell_BreakUp sL).2.base.isBrokenIntoLines = true) ∧
      LimitCell_BreakUp (LimitCell_BreakUp sL).2 = (false, (LimitCell_BreakUp sL).2) ∧
      (LimitCell_BreakUp sL).2.base.isBrokenIntoLines = true ∧
      (LimitCell_RecalculateWidths fs sL).base.isBrokenIntoLines = sL.base.isBrokenIntoLines ∧
      (LimitCell_RecalculateHeight fs sL).base.isBrokenIntoLines = sL.base.isBrokenIntoLines := by
  intro sF sL cfg fs
  refine ⟨?_, ?_, ?_, ?_, ?_, ?_, ?_, ?_, ?_, ?_, ?_, ?_⟩
  · intro h
    simp [FunCell_BreakUp, h]
  · intro h
    simp [FunCell_BreakUp, h, ResetData]
  · by_cases h : sF.base.isBrokenIntoLines <;>
      simp [FunCell_BreakUp, h, ResetData]
  · by_cases h : sF.base.isBrokenIntoLines <;>
      simp [FunCell_BreakUp, h, ResetData]
  · unfold FunCell_RecalculateWidths Cell_RecalculateWidths
    split <;> rfl
  · unfold FunCell_RecalculateHeight Cell_RecalculateHeight
    split
    · rfl
    · split <;> rfl
  · intro h
    simp [LimitCell_BreakUp, h]
  · intro h
    simp [LimitCell_BreakUp, h, ResetData]
  · by_cases h : sL.base.isBrokenIntoLines <;>
      simp [LimitCell_BreakUp, h, ResetData]
  · by_cases h : sL.base.isBrokenIntoLines <;>
      simp [LimitCell_BreakUp, h, ResetData]
  · unfold LimitCell_RecalculateWidths Cell_RecalculateWidths
    split <;> rfl
  · unfold LimitCell_RecalculateHeight Cell_RecalculateHeight
    split
    · rfl
    · split <;> rfl

/-- Witness for C4 at concrete broken and unbroken states of both cell
types. -/
theorem claim_C4_witness :
    FunCell_BreakUp exFunBroken = (false, exFunBroken) ∧
    (FunCell_BreakUp exFunUnbroken).1 = true ∧
    LimitCell_BreakUp exLimitBroken = (false, exLimitBroken) ∧
    (LimitCell_BreakUp exLimitUnbroken).1 = true :=
  ⟨(claim_C4_breakUp_one_way_idempotent exFunBroken exLimitBroken exCfg 10).1 rfl,
   ((claim_C4_breakUp_one_way_idempotent exFunUnbroken exLimitUnbroken exCfg 10).2.1 rfl).1,
   (claim_C4_breakUp_one_way_idempotent exFunBroken exLimitBroken exCfg 10).2.2.2.2.2.2.1 rfl,
   (((claim_C4_breakUp_one_way_idempotent exFunUnbroken exLimitUnbroken exCfg 10).2.2.2.2.2.2.2.1) rfl).1⟩

/-! ## Claim C5: metrics of a broken cell -/

/-- C5 counterexample: the claim as stated ("recalculating a
broken-into-lines cell yields measured width 0 and measured height 0",
with the limit cell named as one of the exemplifying types) is false: at
the concrete broken limit-cell state `exLimitBroken` (whose name chain
has list height 20) an actual recalculation at font size 10 yields
width 0 but height 20, not 0 — LimitCell::RecalculateHeight sets the
broken cell's height to the name chain's height. -/
theorem claim_C5_counterexample :
    exLimitBroken.base.isBrokenIntoLines = true ∧
    NeedsRecalculation 10 exLimitBroken.base = true ∧
    (LimitCell_Recalculate 10 exLimitBroken).base.width = 0 ∧
    (LimitCell_Recalculate 10 exLimitBroken).base.height = 20 ∧
    ¬ (LimitCell_Recalculate 10 exLimitBroken).base.height = 0 := by
  refine ⟨rfl, rfl, rfl, rfl, ?_⟩
  intro h
  have : (20 : Int) = 0 := by
    calc (20 : Int) = (LimitCell_Recalculate 10 exLimitBroken).base.height := by rfl
    _ = 0 := h
  exact absurd this (by decide)

/-- C5 (amended): recalculating a broken-into-lines cell at any font
size (when the needs-recalculation guard lets the recomputation run, as
it does right after BreakUp marks the metrics stale) yields measured
width 0 for both exemplified cell types; the function-application cell's
height also collapses to 0, while the limit cell's height and center
become those of its name chain. -/
theorem claim_C5_broken_metrics :
    ∀ (cfg : Configuration) (fs : Int) (sF : FunCellState) (sL : LimitCellState),
      sF.base.isBrokenIntoLines = true → NeedsRecalculation fs sF.base = true →
      sL.base.isBrokenIntoLines = true → NeedsRecalculation fs sL.base = true →
      ((FunCell_Recalculate cfg fs sF).base.width = 0 ∧
       (FunCell_Recalculate cfg fs sF).base.height = 0) ∧
      ((LimitCell_Recalculate fs sL).base.width = 0 ∧
       (LimitCell_Recalculate fs sL).base.height = sL.nameCell.heightList fs ∧
       (LimitCell_Recalculate fs sL).base.center = sL.nameCell.centerList fs) := by
  intro cfg fs sF sL hbF hgF hbL hgL
  constructor
  · unfold FunCell_Recalculate FunCell_RecalculateWidths FunCell_RecalculateHeight
      Cell_RecalculateWidths Cell_RecalculateHeight
    simp [hgF, hbF, NeedsRecalculation] at *
    simp [hgF, hbF]
  · unfold LimitCell_Recalculate LimitCell_RecalculateWidths LimitCell_RecalculateHeight
      Cell_RecalculateWidths Cell_RecalculateHeight
    simp [hgL, hbL, NeedsRecalculation] at *
    simp [hgL, hbL]

/-- Witness for the amended C5 at concrete broken states, font size 10. -/
theorem claim_C5_witness :
    (FunCell_Recalculate exCfg 10 exFunBroken).base.width = 0 ∧
    (FunCell_Recalculate exCfg 10 exFunBroken).base.height = 0 ∧
    (LimitCell_Recalculate 10 exLimitBroken).base.width = 0 :=
  ⟨(claim_C5_broken_metrics exCfg 10 exFunBroken exLimitBroken rfl rfl rfl rfl).1.1,
   (claim_C5_broken_metrics exCfg 10 exFunBroken exLimitBroken rfl rfl rfl rfl).1.2,
   (claim_C5_broken_metrics exCfg 10 exFunBroken exLimitBroken rfl rfl rfl rfl).2.1⟩

/-! ## Claim C6: the measurement cache -/

/-- C6: measuring a cell at font size F and then again at the same F is
a no-op — the needs-recalculation guard returns early and the whole
state (cached width, height, center included) is left identical; a
request at any F2 different from F is treated as stale (the guard
signals recalculation) and a pass at F2 records the metrics as valid for
F2. -/
theorem claim_C6_measurement_cache :
    ∀ (cfg : Configuration) (fs : Int) (sF : FunCellState) (sL : LimitCellState),
      FunCell_Recalculate cfg fs (FunCell_Recalculate cfg fs sF) = FunCell_Recalculate cfg fs sF ∧
      LimitCell_Recalculate fs (LimitCell_Recalculate fs sL) = LimitCell_Recalculate fs sL ∧
      (∀ fs2 : Int, fs2 ≠ fs →
        NeedsRecalculation fs2 (FunCell_Recalculate cfg fs sF).base = true ∧
        NeedsRecalculation fs2 (LimitCell_Recalculate fs sL).base = true ∧
        (FunCell_Recalculate cfg fs2 (FunCell_Recalculate cfg fs sF)).base.fontSizeOld = some fs2 ∧
        (LimitCell_Recalculate fs2 (LimitCell_Recalculate fs sL)).base.fontSizeOld = some fs2) := by
  intro cfg fs sF sL
  have hF := FunCell_Recalculate_fontSizeOld cfg fs sF
  have hL := LimitCell_Recalculate_fontSizeOld fs sL
  refine ⟨?_, ?_, ?_⟩
  · generalize hX : FunCell_Recalculate cfg fs sF = X at hF ⊢
    unfold FunCell_Recalculate FunCell_RecalculateWidths FunCell_RecalculateHeight
    simp [NeedsRecalculation, hF]
  · generalize hX : LimitCell_Recalculate fs sL = X at hL ⊢
    unfold LimitCell_Recalculate LimitCell_RecalculateWidths LimitCell_RecalculateHeight
    simp [NeedsRecalculation, hL]
  · intro fs2 hne
    refine ⟨?_, ?_, FunCell_Recalculate_fontSizeOld cfg fs2 _,
            LimitCell_Recalculate_fontSizeOld fs2 _⟩
    · simp [NeedsRecalculation, hF]
      exact fun h => hne h.symm
    · simp [NeedsRecalculation, hL]
      exact fun h => hne h.symm

/-- Witness for C6 at concrete states, font sizes 10 and 11. -/
theorem claim_C6_witness :
    FunCell_Recalculate exCfg 10 (FunCell_Recalculate exCfg 10 exFunUnbroken) =
      FunCell_Recalculate exCfg 10 exFunUnbroken ∧
    NeedsRecalculation 11 (FunCell_Recalculate exCfg 10 exFunUnbroken).base = true ∧
    NeedsRecalculation 11 (LimitCell_Recalculate 10 exLimitUnbroken).base = true :=
  ⟨(claim_C6_measurement_cache exCfg 10 exFunUnbroken exLimitUnbroken).1,
   ((claim_C6_measurement_cache exCfg 10 exFunUnbroken exLimitUnbroken).2.2 11 (by decide)).1,
   ((claim_C6_measurement_cache exCfg 10 exFunUnbroken exLimitUnbroken).2.2 11 (by decide)).2.1⟩

/-! ## Claim C7: limit plain-text serialization -/

/-- C7: for every limit cell whose "under" chain renders to "x->0" and
whose base chain renders to "f(x)", plain-text serialization returns
exactly "limit(f(x),x,0)"; with "x->0+" it returns
"limit(f(x),x,0,plus)", and a trailing "-" on the target ("x->0-")
likewise becomes a ",minus" suffix. -/
theorem claim_C7_limit_toString :
    ∀ (c : CommonData) (name under base : List PCell),
      (pcellListToString under = "x->0" → pcellListToString base = "f(x)" →
        pcellToString (PCell.limitC c name under base) = "limit(f(x),x,0)") ∧
      (pcellListToString under = "x->0+" → pcellListToString base = "f(x)" →
        pcellToString (PCell.limitC c name under base) = "limit(f(x),x,0,plus)") ∧
      (pcellListToString under = "x->0-" → pcellListToString base = "f(x)" →
        pcellToString (PCell.limitC c name under base) = "limit(f(x),x,0,minus)") := by
  intro c name under base
  refine ⟨?_, ?_, ?_⟩ <;> intro hu hb <;>
    · show limitToStringAux (pcellListToString under) (pcellListToString base) = _
      rw [hu, hb]
      rfl

/-- Witness for C7 at a concrete limit cell whose children are plain
text cells. -/
theorem claim_C7_witness :
    pcellToString (PCell.limitC { } [] [PCell.textC { } "x->0"] [PCell.textC { } "f(x)"]) =
      "limit(f(x),x,0)" ∧
    pcellToString (PCell.limitC { } [] [PCell.textC { } "x->0+"] [PCell.textC { } "f(x)"]) =
      "limit(f(x),x,0,plus)" ∧
    pcellToString (PCell.limitC { } [] [PCell.textC { } "x->0-"] [PCell.textC { } "f(x)"]) =
      "limit(f(x),x,0,minus)" :=
  ⟨(claim_C7_limit_toString { } [] [PCell.textC { } "x->0"] [PCell.textC { } "f(x)"]).1 rfl rfl,
   (claim_C7_limit_toString { } [] [PCell.textC { } "x->0+"] [PCell.textC { } "f(x)"]).2.1 rfl rfl,
   (claim_C7_limit_toString { } [] [PCell.textC { } "x->0-"] [PCell.textC { } "f(x)"]).2.2 rfl rfl⟩

/-! ## Claim C8: function-application TeX serialization -/

def exBrokenFunName : List PCell := [PCell.textC { } "sin"]

def exBrokenFunArg : List PCell := [PCell.textC { } "(x)"]

/-- A function-application cell that has been broken into lines, with
name rendering "sin" and argument TeX rendering "(x)". -/
def exBrokenFun : PCell :=
  PCell.funC { isBrokenIntoLines := true } exBrokenFunName exBrokenFunArg

/-- C8 counterexample: the claim as stated quantifies over every
function-application cell, but a cell broken into lines serializes to
the empty string even when its name renders to "sin": FunCell::ToTeX
returns wxEmptyString for a broken cell before the known-name test. -/
theorem claim_C8_counterexample :
    headToString exBrokenFunName = "sin" ∧
    pcellListToTeX exBrokenFunArg = "(x)" ∧
    pcellToTeX exBrokenFun = "" ∧
    ¬ pcellToTeX exBrokenFun = "\\sin\x7b(x)\x7d" := by
  refine ⟨rfl, rfl, rfl, ?_⟩
  intro h
  have h2 : ("" : String) = "\\sin\x7b(x)\x7d" := by
    calc ("" : String) = pcellToTeX exBrokenFun := by rfl
    _ = "\\sin\x7b(x)\x7d" := h
  exact absurd h2 (by decide)

/-- C8 (amended): for every function-application cell *not broken into
lines*: if the name chain's head renders (as a string) to one of exactly
sin, cos, cosh, sinh, log, cot, sec, csc, tan, TeX serialization is the
backslash form applied to the argument's TeX rendering; for every other
name it is the plain concatenation of the name's and argument's TeX
renderings. -/
theorem claim_C8_fun_toTeX :
    ∀ (c : CommonData) (name arg : List PCell),
      c.isBrokenIntoLines = false →
      ((headToString name = "sin" ∨ headToString name = "cos" ∨ headToString name = "cosh" ∨
        headToString name = "sinh" ∨ headToString name = "log" ∨ headToString name = "cot" ∨
        headToString name = "sec" ∨ headToString name = "csc" ∨ headToString name = "tan") →
        pcellToTeX (PCell.funC c name arg) =
          "\\" ++ headToString name ++ "\x7b" ++ pcellListToTeX arg ++ "\x7d") ∧
      (¬ (headToString name = "sin" ∨ headToString name = "cos" ∨ headToString name = "cosh" ∨
          headToString name = "sinh" ∨ headToString name = "log" ∨ headToString name = "cot" ∨
          headToString name = "sec" ∨ headToString name = "csc" ∨ headToString name = "tan") →
        pcellToTeX (PCell.funC c name arg) = pcellListToTeX name ++ pcellListToTeX arg) := by
  intro c name arg hb
  constructor
  · intro hk
    show (if c.isBrokenIntoLines then "" else _) = _
    rw [hb]
    simp only [Bool.false_eq_true, if_false]
    rw [if_pos hk]
  · intro hk
    show (if c.isBrokenIntoLines then "" else _) = _
    rw [hb]
    simp only [Bool.false_eq_true, if_false]
    rw [if_neg hk]

/-- Witness for the amended C8: name "sin" with argument rendering "(x)"
gives "\sin{(x)}", name "foo" gives "foo(x)". -/
theorem claim_C8_witness :
    pcellToTeX (PCell.funC { } [PCell.textC { } "sin"] [PCell.textC { } "(x)"]) =
      "\\sin\x7b(x)\x7d" ∧
    pcellToTeX (PCell.funC { } [PCell.textC { } "foo"] [PCell.textC { } "(x)"]) = "foo(x)" := by
  constructor
  · have h := (claim_C8_fun_toTeX { } [PCell.textC { } "sin"] [PCell.textC { } "(x)"] rfl).1
      (Or.inl rfl)
    exact h.trans (by rfl)
  · have h := (claim_C8_fun_toTeX { } [PCell.textC { } "foo"] [PCell.textC { } "(x)"] rfl).2
      (by decide)
    exact h.trans (by rfl)

/-! ## Claim C9: null-child recovery -/

/-- C9 counterexample: the claim as stated says every listed operation
installs an *error-styled* placeholder for a null child, but
FunCell::SetName restyles whatever cell it installs with TS_FUNCTION
(FunCell.cpp 52), so the placeholder installed for a null name carries
the function style, not the error style. -/
theorem claim_C9_counterexample :
    headStyle (FunCell_SetName []) = some TextStyle.TS_FUNCTION ∧
    ¬ headStyle (FunCell_SetName []) = some TextStyle.TS_ERROR := by
  refine ⟨rfl, ?_⟩
  intro h
  have h2 : some TextStyle.TS_FUNCTION = some TextStyle.TS_ERROR := by
    calc some TextStyle.TS_FUNCTION = headStyle (FunCell_SetName []) := by rfl
    _ = some TextStyle.TS_ERROR := h
  exact absurd h2 (by decide)

/-- C9 (amended): every operation that installs a required child (the
function-application name/argument setters, the limit cell's
name/under/base setters, and the parser's HandleNullPointer wrapper)
turns a null child into a non-null, visibly-marked placeholder carrying
a diagnostic tooltip, and passes a non-null child through unchanged, so
no required child reference is ever left null and no null is propagated;
the installed placeholder is error-styled in every case except the
function-application name setter, which immediately restyles the
installed head cell with the function style. -/
theorem claim_C9_null_child_recovery :
    ∀ input : List PCell,
      (FunCell_SetName input ≠ [] ∧ FunCell_SetArg input ≠ [] ∧
       LimitCell_SetName input ≠ [] ∧ LimitCell_SetUnder input ≠ [] ∧
       LimitCell_SetBase input ≠ [] ∧ HandleNullPointer input ≠ []) ∧
      (input = [] →
        FunCell_SetArg input = [visiblyInvalidCell] ∧
        LimitCell_SetName input = [visiblyInvalidCell] ∧
        LimitCell_SetUnder input = [visiblyInvalidCell] ∧
        LimitCell_SetBase input = [visiblyInvalidCell] ∧
        FunCell_SetName input = [visiblyInvalidCell.setStyle TextStyle.TS_FUNCTION] ∧
        HandleNullPointer input = [bugMissingContentsCell]) ∧
      (input ≠ [] →
        FunCell_SetArg input = input ∧ LimitCell_SetName input = input ∧
        LimitCell_SetUnder input = input ∧ LimitCell_SetBase input = input ∧
        HandleNullPointer input = input) ∧
      (headToolTip (FunCell_SetName []) = some invalidCellToolTip ∧
       visiblyInvalidCell.common.style = TextStyle.TS_ERROR ∧
       visiblyInvalidCell.common.toolTip = some invalidCellToolTip ∧
       bugMissingContentsCell.common.style = TextStyle.TS_ERROR ∧
       bugMissingContentsCell.common.toolTip = some bugMissingToolTip) := by
  intro input
  refine ⟨?_, ?_, ?_, ⟨rfl, rfl, rfl, rfl, rfl⟩⟩
  · cases input <;>
      simp [FunCell_SetName, FunCell_SetArg, LimitCell_SetName, LimitCell_SetUnder,
            LimitCell_SetBase, HandleNullPointer, InvalidCellOr]
  · intro h
    subst h
    exact ⟨rfl, rfl, rfl, rfl, rfl, rfl⟩
  · intro h
    cases input with
    | nil => exact absurd rfl h
    | cons c cs =>
        exact ⟨rfl, rfl, rfl, rfl, rfl⟩

/-- Witness for the amended C9 at a null input and at a concrete
non-null input. -/
theorem claim_C9_witness :
    HandleNullPointer [] = [bugMissingContentsCell] ∧
    LimitCell_SetUnder [] = [visiblyInvalidCell] ∧
    FunCell_SetArg [PCell.textC { } "x"] = [PCell.textC { } "x"] :=
  ⟨((claim_C9_null_child_recovery []).2.1 rfl).2.2.2.2.2,
   ((claim_C9_null_child_recovery []).2.1 rfl).2.2.1,
   ((claim_C9_null_child_recovery [PCell.textC { } "x"]).2.2.1 (by simp)).1⟩

/-! ## Claim C3: the ParseLine size governor -/

/-- Replacing control characters preserves the length. -/
theorem wxLen_graphRegexReplace (s : String) : wxLen (graphRegexReplace s) = wxLen s := by
  simp [wxLen, graphRegexReplace]

/-- C3: ParseLine enforces the size governor.  If the effective
show-length threshold is nonzero and the input's length is at or above
it, ParseLine returns exactly the single warning-styled cell (with its
explanatory text and tooltip) and performs no XML parsing — the result
does not depend on the XML loader at all.  If the threshold is 0
(unlimited) or the length is below the threshold, ParseLine loads the
XML (after the control-character replacement) and hands the root's
children to ParseTag. -/
theorem claim_C3_parseLine_size_governor :
    ∀ (fuel : Nat) (load1 load2 : String → Option XmlNode) (setting : Int)
      (style : CellType) (s : String),
      (showLengthOf setting ≠ 0 → showLengthOf setting ≤ wxLen s →
        ParseLine fuel load1 setting style s = some [tooLongCell] ∧
        ParseLine fuel load1 setting style s = ParseLine fuel load2 setting style s) ∧
      ((showLengthOf setting = 0 ∨ wxLen s < showLengthOf setting) →
        ParseLine fuel load1 setting style s =
          (match load1 (graphRegexReplace s) with
           | some doc => (ParseTag fuel ⟨style, false⟩ (xmlChildren doc) true).map Prod.fst
           | none => some [])) ∧
      pcellToString tooLongCell =
        "(Expression longer than allowed by the configuration setting)" ∧
      tooLongCell.common.style = TextStyle.TS_WARNING ∧
      tooLongCell.common.toolTip = some tooLongToolTip := by
  intro fuel load1 load2 setting style s
  refine ⟨?_, ?_, rfl, rfl, rfl⟩
  · intro hnz hge
    have hcond : ¬ (wxLen (graphRegexReplace s) < showLengthOf setting ∨
        showLengthOf setting = 0) := by
      rw [wxLen_graphRegexReplace]
      omega
    have key : ∀ load : String → Option XmlNode,
        ParseLine fuel load setting style s = some [tooLongCell] := by
      intro load
      unfold ParseLine
      rw [if_neg hcond]
    exact ⟨key load1, (key load1).trans (key load2).symm⟩
  · intro hc
    have hcond : wxLen (graphRegexReplace s) < showLengthOf setting ∨
        showLengthOf setting = 0 := by
      rw [wxLen_graphRegexReplace]
      omega
    unfold ParseLine
    rw [if_pos hcond]

/-- A string of 6000 characters, at the threshold of the smallest
configured preset. -/
def longInput : String := ⟨List.replicate 6000 'a'⟩

/-- Witness for C3: with preset 0 (threshold 6000) the 6000-character
input yields exactly the warning cell under any loader; with preset 3
(unlimited) a loader that fails to produce a document yields the null
fragment. -/
theorem claim_C3_witness :
    ParseLine 5 (fun _ => none) 0 CellType.MC_TYPE_DEFAULT longInput = some [tooLongCell] ∧
    ParseLine 5 (fun _ => none) 3 CellType.MC_TYPE_DEFAULT "x" = some [] := by
  have hlen : showLengthOf 0 ≤ wxLen longInput := by
    have h6 : wxLen longInput = 6000 := by
      unfold wxLen longInput
      rw [show (String.mk (List.replicate 6000 'a')).data = List.replicate 6000 'a' from rfl]
      rw [List.length_replicate]
      rfl
    rw [h6]
    decide
  constructor
  · exact ((claim_C3_parseLine_size_governor 5 (fun _ => none) (fun _ => none) 0
      CellType.MC_TYPE_DEFAULT longInput).1 (by decide) hlen).1
  · have h := (claim_C3_parseLine_size_governor 5 (fun _ => none) (fun _ => none) 3
      CellType.MC_TYPE_DEFAULT "x").2.1 (Or.inl (by decide))
    exact h.trans (by rfl)

/-! ## Claim C1: ParseTag on a supported tag -/

/-- The function-application cell ParseFunTag builds for
`fnMinimalNode` under the inverted append condition: both sub-parses
come back null (their own inner fragments are dropped by the same bug),
so both required children are the HandleNullPointer placeholder, the
name placeholder restyled by FunCell::SetName. -/
def c1ExpectedFunCell : PCell :=
  PCell.funC { style := TextStyle.TS_FUNCTION }
    [bugMissingContentsCell.setStyle TextStyle.TS_FUNCTION] [bugMissingContentsCell]

/-- C1 (code bug): on a minimal well-formed instance of the supported fn
tag, the registered construction routine (ParseFunTag) does return a
non-null single function-application cell with both required children
installed non-null, but ParseTag itself returns the absent fragment (and
zero warnings): the append condition in the sibling loop reads
`if (!tmp)` (MathParser.cpp 1040), so every successfully parsed fragment
is discarded instead of being appended — contradicting the comment above
it ("Append the cell we found") and the claim that ParseTag never
returns an absent fragment for such input. -/
theorem claim_C1_parseTag_drops_fragment :
    ParseTag 100 defaultPState [fnMinimalNode] true = some ([], 0) ∧
    ParseFunTag 100 defaultPState fnMinimalNode = some ([c1ExpectedFunCell], 0) ∧
    c1ExpectedFunCell.isFunCell = true ∧
    funName c1ExpectedFunCell ≠ [] ∧ funArg c1ExpectedFunCell ≠ [] := by
  refine ⟨rfl, rfl, rfl, ?_, ?_⟩ <;> simp [c1ExpectedFunCell, funName, funArg]

/-! ## Claim C2: unknown wrapper tags -/

/-- C2 (code bug): the variable-name routine does produce the inner
variable cell for the v element, and the whole ParseTag call emits zero
warnings (within the at-most-one bound), but ParseTag on
bogus wrapping a v element returns the absent fragment instead of the
inner variable-name cell: the recursion into the children happens, yet
its (and every) non-null result is discarded by the inverted append
condition `if (!tmp)` (MathParser.cpp 1040), so the unknown wrapper tag
is not transparent as the spec requires. -/
theorem claim_C2_unknown_tag_not_transparent :
    ParseTag 100 defaultPState [bogusNode] true = some ([], 0) ∧
    (∃ cell : PCell,
      ParseVariableNameTag defaultPState (XmlNode.elem "v" [] [XmlNode.text "x"]) = [cell] ∧
      cell.common.style = TextStyle.TS_VARIABLE ∧ pcellToString cell = "x") := by
  exact ⟨rfl, ⟨_, rfl, rfl, rfl⟩⟩

/-! ## Claim C10: the fold-assembly loop -/

/-- C10 (code bug): the fold-assembly loop of ParseCellTag does *not*
advance past a child whose parse result is absent: `continue` skips the
`xmlcells = GetNextTag(xmlcells)` advance (MathParser.cpp 390), so on a
fold whose first child parses to nothing the loop state repeats exactly
and the loop never reaches the end of the sibling list — it runs
forever, for any number of permitted iterations. -/
theorem claim_C10_fold_loop_never_terminates :
    ParseCellTag_foldStep 100 defaultPState foldStuckState = some (Sum.inl foldStuckState) ∧
    ∀ n : Nat, ParseCellTag_foldRun 100 defaultPState n foldStuckState = none := by
  have hstep : ParseCellTag_foldStep 100 defaultPState foldStuckState =
      some (Sum.inl foldStuckState) := rfl
  refine ⟨hstep, ?_⟩
  intro n
  induction n with
  | zero => rfl
  | succ n ih =>
      show ParseCellTag_foldRun 100 defaultPState (n + 1) foldStuckState = none
      rw [ParseCellTag_foldRun, hstep]
      exact ih
